import Mathlib

/-!
Verification of the command-line agent in `app/main.py`.

The development shallowly embeds the core of the program:
  * the three tool implementations `tool_read`, `tool_write`, `tool_bash`
    acting on an explicit filesystem / process-outcome model, and
  * the agent loop `run_agent_loop`, driven by a script of completion-service
    responses, with fatal errors surfaced as a `fatal` loop result
    (the Python code raises `RuntimeError` / lets exceptions escape there).

Machine-level effects are modelled explicitly: the filesystem is a finite map
from paths to decoded text plus a set of existing directories; a Bash command
is resolved through an oracle `String → BashOutcome` carried by the world,
standing for the subprocess environment (launch failure, or completion with a
return code and the two captured streams).
-/

/-- A filesystem: decoded UTF-8 text files keyed by path, plus the set of
directories that exist.  `files` is ordered with the newest binding first. -/
structure Fs where
  files : List (String × String)
  dirs : List String
deriving DecidableEq, Repr

/-- Look a path up in the filesystem; `none` means the file cannot be opened
(or decoded), which in the Python code makes `open` raise. -/
def fsLookup (fs : Fs) (p : String) : Option String :=
  (fs.files.find? (fun kv => kv.1 == p)).map (fun kv => kv.2)

/-- Embedding of `os.path.dirname` (posix): take everything up to and
including the last slash, then strip trailing slashes unless the head is all
slashes. -/
def dirname (p : String) : String :=
  let l := p.data
  if '/' ∈ l then
    let j := l.reverse.indexOf '/'
    let head := l.take (l.length - j)
    if head.all (fun c => c = '/') then String.mk head
    else String.mk ((head.reverse.dropWhile (fun c => c = '/')).reverse)
  else ""

/-- The chain of directories `os.makedirs(d, exist_ok=True)` brings into
existence: `d` itself and all its ancestors.  Fuel-bounded recursion over
`dirname`, which strictly shortens its argument until it stalls at a root. -/
def makedirsChain : Nat → String → List String
  | 0, _ => []
  | n + 1, d =>
    let par := dirname d
    d :: (if par = "" ∨ par = d then [] else makedirsChain n par)

/-- `os.makedirs(d, exist_ok=True)` on the directory set. -/
def makedirs (dirs : List String) (d : String) : List String :=
  makedirsChain (d.length + 1) d ++ dirs

/-- Embedding of `tool_read`: read a UTF-8 text file and return its contents;
`none` stands for the exception `open` raises when the file is missing or
undecodable. -/
def tool_read (fs : Fs) (file_path : String) : Option String :=
  fsLookup fs file_path

/-- Embedding of `tool_write`: create the missing parent directories (when
`os.path.dirname` is nonempty), create or fully overwrite the file with the
content, and return the confirmation string
`f"Wrote \x7blen(content)\x7d chars to \x7bfile_path\x7d"`. -/
def tool_write (fs : Fs) (file_path content : String) : Fs × String :=
  let parent := dirname file_path
  let fs1 : Fs := if parent = "" then fs else { fs with dirs := makedirs fs.dirs parent }
  let fs2 : Fs := { fs1 with
    files := (file_path, content) :: fs1.files.filter (fun kv => kv.1 != file_path) }
  (fs2, "Wrote " ++ toString content.length ++ " chars to " ++ file_path)

/-- What the subprocess layer hands back for one command: either
`subprocess.run` itself raised (launch failure), or the command completed
with a return code and captured stdout / stderr (decoded to text). -/
inductive BashOutcome where
  | launchFailure (msg : String)
  | completed (returncode : Int) (stdout : String) (stderr : String)
deriving DecidableEq, Repr

/-- Embedding of `tool_bash`, as a function of the subprocess outcome:
launch failure is caught and rendered as `ERROR: failed to run command: e`;
a non-zero return code yields the labelled failure report; on success stdout
and (when nonempty) stderr are concatenated, with a separating newline only
when the accumulated output is nonempty and does not already end in one. -/
def tool_bash (outcome : BashOutcome) : String :=
  match outcome with
  | .launchFailure e => "ERROR: failed to run command: " ++ e
  | .completed code stdout stderr =>
    if code ≠ 0 then
      "ERROR (code " ++ toString code ++ ")\nSTDOUT:\n" ++ stdout ++ "\nSTDERR:\n" ++ stderr
    else
      let combined := if stdout ≠ "" then stdout else ""
      if stderr ≠ "" then
        combined ++ (if combined.endsWith "\n" ∨ combined = "" then "" else "\n") ++ stderr
      else combined

/-- The world one agent run acts on: the filesystem, and an oracle giving the
outcome of each shell command (the subprocess environment). -/
structure World where
  fs : Fs
  bashEnv : String → BashOutcome

/-- One tool invocation request from the service.  `args` is the result of
decoding `tc.function.arguments` with `json.loads` (string-valued JSON
fields, as the tool schemas require): `none` stands for a JSON decode
failure, `some m` for the decoded mapping. -/
structure ToolCall where
  id : String
  name : String
  args : Option (List (String × String))
deriving DecidableEq, Repr

/-- The first choice of one completion-service response: optional text
content and the ordered tool invocation requests. -/
structure ServiceResponse where
  content : Option String
  tool_calls : List ToolCall
deriving DecidableEq, Repr

/-- One entry of the conversation transcript. -/
inductive Message where
  | user (content : String)
  | assistant (content : Option String) (tool_calls : List ToolCall)
  | tool (tool_call_id : String) (content : String)
deriving DecidableEq, Repr

/-- `args_obj.get(k)` on a decoded argument mapping. -/
def getArg (args : List (String × String)) (k : String) : Option String :=
  (args.find? (fun kv => kv.1 == k)).map (fun kv => kv.2)

/-- Dispatch of one tool invocation request, following the body of the
`for tc in tool_calls` loop: decode the arguments, branch on the tool name,
validate required parameters (`if not file_path` treats a missing and an
empty string alike; `content is None` accepts the empty string), run the
implementation.  `Except.error` is a `RuntimeError` or an escaping exception:
the whole run aborts. -/
def execCall (w : World) (tc : ToolCall) : Except String (World × String) :=
  match tc.args with
  | none => Except.error "Invalid tool arguments JSON"
  | some args =>
    if tc.name = "Read" then
      match getArg args "file_path" with
      | none => Except.error "Missing required argument: file_path"
      | some fp =>
        if fp = "" then Except.error "Missing required argument: file_path"
        else
          match tool_read w.fs fp with
          | none => Except.error ("Unreadable file: " ++ fp)
          | some text => Except.ok (w, text)
    else if tc.name = "Write" then
      match getArg args "file_path" with
      | none => Except.error "Missing required argument: file_path"
      | some fp =>
        if fp = "" then Except.error "Missing required argument: file_path"
        else
          match getArg args "content" with
          | none => Except.error "Missing required argument: content"
          | some content =>
            let r := tool_write w.fs fp content
            Except.ok ({ w with fs := r.1 }, r.2)
    else if tc.name = "Bash" then
      match getArg args "command" with
      | none => Except.error "Missing required argument: command"
      | some cmd =>
        if cmd = "" then Except.error "Missing required argument: command"
        else Except.ok (w, tool_bash (w.bashEnv cmd))
    else Except.error ("Unsupported tool: " ++ tc.name)

/-- Outcome of executing the batch of tool calls of one assistant message. -/
inductive StepOut where
  | fatal (w : World) (msgs : List Message) (err : String)
  | ok (w : World) (msgs : List Message)

/-- Execute the requests of one assistant message in order, appending one
tool-role message per successful call; a failing call aborts with the world
and transcript as they stood when it was attempted. -/
def execCalls (w : World) (msgs : List Message) : List ToolCall → StepOut
  | [] => StepOut.ok w msgs
  | tc :: rest =>
    match execCall w tc with
    | Except.error e => StepOut.fatal w msgs e
    | Except.ok (w', out) => execCalls w' (msgs ++ [Message.tool tc.id out]) rest

/-- Result of one agent run: normal termination with the final answer, a
fatal abort, or exhaustion of the scripted service responses (the run would
issue another service call). -/
inductive LoopResult where
  | final (w : World) (transcript : List Message) (answer : String)
  | fatal (w : World) (transcript : List Message) (err : String)
  | outOfResponses (w : World) (transcript : List Message)

/-- The `while True` body of `run_agent_loop`, consuming the scripted
responses one service call at a time: append the assistant message; if it
carries no tool calls return its content (empty text when absent); otherwise
execute the calls and iterate. -/
def loopFrom (w : World) (msgs : List Message) : List ServiceResponse → LoopResult
  | [] => LoopResult.outOfResponses w msgs
  | r :: rest =>
    let msgs' := msgs ++ [Message.assistant r.content r.tool_calls]
    if r.tool_calls = [] then
      LoopResult.final w msgs' (r.content.getD "")
    else
      match execCalls w msgs' r.tool_calls with
      | StepOut.fatal w2 m2 e => LoopResult.fatal w2 m2 e
      | StepOut.ok w2 m2 => loopFrom w2 m2 rest

/-- Embedding of `run_agent_loop`: seed the transcript with the user prompt
and run the loop against the scripted service responses. -/
def run_agent_loop (w : World) (user_prompt : String) (script : List ServiceResponse) : LoopResult :=
  loopFrom w [Message.user user_prompt] script

/-- The `tool_call_id` fields of the tool-role messages of a transcript, in
order. -/
def toolIds (msgs : List Message) : List String :=
  msgs.filterMap (fun m =>
    match m with
    | Message.tool i _ => some i
    | _ => none)

/-- All tool-call ids a response script carries, in order. -/
def scriptIds (script : List ServiceResponse) : List String :=
  (script.map (fun r => r.tool_calls.map ToolCall.id)).flatten

/-- Left-to-right correlation check of a transcript.  The state is the list
of still-unanswered invocation ids of the most recent assistant message, in
order.  A user or assistant message is legal only when no request is pending
(every request is answered before the next service call); a tool message
must answer exactly the first pending request.  `none` signals a violation;
`some pending` is the pending list after the scan. -/
def scanMsgs : List Message → List String → Option (List String)
  | [], pending => some pending
  | Message.user _ :: rest, pending =>
      if pending = [] then scanMsgs rest [] else none
  | Message.assistant _ tcs :: rest, pending =>
      if pending = [] then scanMsgs rest (tcs.map ToolCall.id) else none
  | Message.tool _ _ :: _, [] => none
  | Message.tool i _ :: rest, p :: ps =>
      if i = p then scanMsgs rest ps else none

/-! ### Helper lemmas -/

lemma tool_write_files (fs : Fs) (p c : String) :
    (tool_write fs p c).1.files = (p, c) :: fs.files.filter (fun kv => kv.1 != p) := by
  unfold tool_write
  by_cases h : dirname p = "" <;> simp [h]

lemma tool_write_snd (fs : Fs) (p c : String) :
    (tool_write fs p c).2 = "Wrote " ++ toString c.length ++ " chars to " ++ p := by
  unfold tool_write
  by_cases h : dirname p = "" <;> simp [h]

lemma fsLookup_write (fs : Fs) (p c : String) :
    fsLookup (tool_write fs p c).1 p = some c := by
  simp [fsLookup, tool_write_files]

lemma tool_write_dirs_mem (fs : Fs) (p c : String) (h : dirname p ≠ "") :
    dirname p ∈ (tool_write fs p c).1.dirs := by
  unfold tool_write
  simp [h, makedirs, makedirsChain]

/-! ### Tool-level claims -/

/-- C3: Write/Read round-trip: for every filesystem, path and content
(including the empty string), Write(path, content) followed by Read(path)
returns exactly the content, byte-exact. -/
theorem write_read_roundtrip (fs : Fs) (p c : String) :
    tool_read (tool_write fs p c).1 p = some c := by
  simpa [tool_read] using fsLookup_write fs p c

/-- C4: Write semantics: Write fully overwrites the target (a second write
replaces the first, so reading back yields the second content), returns the
deterministic confirmation string reporting the number of characters written
and the target path, and brings the missing parent directory into
existence whenever the path has one. -/
theorem write_semantics (fs : Fs) (p a b c : String) :
    tool_read (tool_write (tool_write fs p a).1 p b).1 p = some b ∧
    (tool_write fs p c).2 = "Wrote " ++ toString c.length ++ " chars to " ++ p ∧
    (dirname p ≠ "" → dirname p ∈ (tool_write fs p c).1.dirs) :=
  ⟨by simpa [tool_read] using fsLookup_write (tool_write fs p a).1 p b,
   tool_write_snd fs p c,
   tool_write_dirs_mem fs p c⟩

/-- Witness for C4 at a concrete input: the path `a/b.txt` has parent `a`,
and after writing, the parent directory exists, the confirmation string is
exact, and overwriting `A` with `B` reads back `B`. -/
theorem write_semantics_witness :
    dirname "a/b.txt" ≠ "" ∧
    tool_read (tool_write (tool_write ⟨[], []⟩ "a/b.txt" "A").1 "a/b.txt" "B").1 "a/b.txt" =
      some "B" ∧
    (tool_write (⟨[], []⟩ : Fs) "a/b.txt" "hello").2 = "Wrote 5 chars to a/b.txt" ∧
    dirname "a/b.txt" ∈ (tool_write (⟨[], []⟩ : Fs) "a/b.txt" "hello").1.dirs :=
  ⟨by decide,
   (write_semantics ⟨[], []⟩ "a/b.txt" "A" "B" "hello").1,
   (write_semantics ⟨[], []⟩ "a/b.txt" "A" "B" "hello").2.1,
   (write_semantics ⟨[], []⟩ "a/b.txt" "A" "B" "hello").2.2 (by decide)⟩

/-- C5: Bash success output: when the command completes with exit status
zero, the result is stdout concatenated with stderr when stderr is nonempty,
with a separating newline only when stdout was nonempty and did not already
end in one; in particular a completed `echo hi` yields exactly the captured
stdout with no error wrapping. -/
theorem bash_success_output :
    (∀ stdout stderr : String,
      tool_bash (BashOutcome.completed 0 stdout stderr) =
        stdout ++ (if stderr = "" then ""
          else (if stdout = "" ∨ stdout.endsWith "\n" then "" else "\n") ++ stderr)) ∧
    tool_bash (BashOutcome.completed 0 "hi\n" "") = "hi\n" := by
  constructor
  · intro stdout stderr
    by_cases ho : stdout = "" <;> by_cases he : stderr = "" <;>
      by_cases hn : stdout.endsWith "\n" <;>
      simp [tool_bash, ho, he, hn, String.append_assoc]
  · rfl

/-- C6: Bash failures are recoverable, never fatal: a non-zero exit status
yields the structured failure report containing the exit code and both
captured streams under `STDOUT:` and `STDERR:` labels; a launch failure
yields text marked `ERROR:`; and the dispatcher wraps a Bash invocation with
a present nonempty command in a normal (non-aborting) tool result, so the
agent run continues. -/
theorem bash_failure_recoverable :
    (∀ (code : Int) (stdout stderr : String), code ≠ 0 →
      tool_bash (BashOutcome.completed code stdout stderr) =
        "ERROR (code " ++ toString code ++ ")\nSTDOUT:\n" ++ stdout ++
          "\nSTDERR:\n" ++ stderr) ∧
    (∀ msg : String,
      tool_bash (BashOutcome.launchFailure msg) = "ERROR: failed to run command: " ++ msg) ∧
    (∀ (w : World) (i : String) (args : List (String × String)) (cmd : String),
      getArg args "command" = some cmd → cmd ≠ "" →
      execCall w ⟨i, "Bash", some args⟩ = Except.ok (w, tool_bash (w.bashEnv cmd))) := by
  refine ⟨fun code stdout stderr h => by simp [tool_bash, h], fun msg => rfl, ?_⟩
  intro w i args cmd hc hne
  simp [execCall, hc, hne]

/-- Witness for C6 at concrete inputs: `exit 7` style completion, a launch
failure, and a dispatched Bash call in a world whose oracle reports a clean
completion. -/
theorem bash_failure_recoverable_witness :
    ((7 : Int) ≠ 0 ∧
      tool_bash (BashOutcome.completed 7 "" "") = "ERROR (code 7)\nSTDOUT:\n\nSTDERR:\n") ∧
    tool_bash (BashOutcome.launchFailure "boom") = "ERROR: failed to run command: boom" ∧
    (getArg [("command", "echo hi")] "command" = some "echo hi" ∧ "echo hi" ≠ "" ∧
      execCall ⟨⟨[], []⟩, fun _ => BashOutcome.completed 0 "hi\n" ""⟩
          ⟨"id1", "Bash", some [("command", "echo hi")]⟩ =
        Except.ok (⟨⟨[], []⟩, fun _ => BashOutcome.completed 0 "hi\n" ""⟩, "hi\n")) :=
  ⟨⟨by decide, bash_failure_recoverable.1 7 "" "" (by decide)⟩,
   bash_failure_recoverable.2.1 "boom",
   rfl, by decide,
   bash_failure_recoverable.2.2 ⟨⟨[], []⟩, fun _ => BashOutcome.completed 0 "hi\n" ""⟩
     "id1" [("command", "echo hi")] "echo hi" rfl (by decide)⟩

lemma execCall_read_ok (w : World) (i : String) (args : List (String × String))
    (fp text : String) (hfp : getArg args "file_path" = some fp) (hne : fp ≠ "")
    (hread : tool_read w.fs fp = some text) :
    execCall w ⟨i, "Read", some args⟩ = Except.ok (w, text) := by
  simp [execCall, hfp, hne, hread]

lemma loopFrom_head_fatal (w : World) (msgs : List Message) (cnt : Option String)
    (tc : ToolCall) (tcs : List ToolCall) (rest : List ServiceResponse) (e : String)
    (h : execCall w tc = Except.error e) :
    loopFrom w msgs (⟨cnt, tc :: tcs⟩ :: rest) =
      LoopResult.fatal w (msgs ++ [Message.assistant cnt (tc :: tcs)]) e := by
  simp [loopFrom, execCalls, h]

/-- C7: Read contract: when the file can be opened and decoded, the Read
tool returns its exact content in full (and mutates nothing); when it
cannot, the whole agent run aborts fatally at that invocation — the failure
is a `fatal` loop result, not a tool-role message fed back to the model. -/
theorem read_contract :
    (∀ (w : World) (i : String) (args : List (String × String)) (fp text : String),
      getArg args "file_path" = some fp → fp ≠ "" →
      tool_read w.fs fp = some text →
      execCall w ⟨i, "Read", some args⟩ = Except.ok (w, text)) ∧
    (∀ (w : World) (i : String) (args : List (String × String)) (fp : String),
      getArg args "file_path" = some fp → fp ≠ "" →
      tool_read w.fs fp = none →
      ∀ (msgs : List Message) (cnt : Option String) (tcs : List ToolCall)
        (rest : List ServiceResponse),
        loopFrom w msgs (⟨cnt, ⟨i, "Read", some args⟩ :: tcs⟩ :: rest) =
          LoopResult.fatal w
            (msgs ++ [Message.assistant cnt (⟨i, "Read", some args⟩ :: tcs)])
            ("Unreadable file: " ++ fp)) := by
  refine ⟨execCall_read_ok, ?_⟩
  intro w i args fp hfp hne hread msgs cnt tcs rest
  exact loopFrom_head_fatal w msgs cnt _ tcs rest _ (by simp [execCall, hfp, hne, hread])

/-- Witness for C7 at concrete inputs: reading the existing file `f` returns
its exact content, and a Read of the absent file `missing` turns the whole
run fatal. -/
theorem read_contract_witness :
    (getArg [("file_path", "f")] "file_path" = some "f" ∧ "f" ≠ "" ∧
      tool_read (⟨[("f", "x")], []⟩ : Fs) "f" = some "x" ∧
      execCall ⟨⟨[("f", "x")], []⟩, fun _ => BashOutcome.completed 0 "" ""⟩
          ⟨"id1", "Read", some [("file_path", "f")]⟩ =
        Except.ok (⟨⟨[("f", "x")], []⟩, fun _ => BashOutcome.completed 0 "" ""⟩, "x")) ∧
    (tool_read (⟨[], []⟩ : Fs) "missing" = none ∧
      loopFrom ⟨⟨[], []⟩, fun _ => BashOutcome.completed 0 "" ""⟩ [Message.user "p"]
          [⟨none, [⟨"id1", "Read", some [("file_path", "missing")]⟩]⟩] =
        LoopResult.fatal ⟨⟨[], []⟩, fun _ => BashOutcome.completed 0 "" ""⟩
          [Message.user "p",
           Message.assistant none [⟨"id1", "Read", some [("file_path", "missing")]⟩]]
          "Unreadable file: missing") :=
  ⟨⟨rfl, by decide, rfl,
    read_contract.1 ⟨⟨[("f", "x")], []⟩, fun _ => BashOutcome.completed 0 "" ""⟩
      "id1" [("file_path", "f")] "f" "x" rfl (by decide) rfl⟩,
   ⟨rfl,
    read_contract.2 ⟨⟨[], []⟩, fun _ => BashOutcome.completed 0 "" ""⟩
      "id1" [("file_path", "missing")] "missing" rfl (by decide) rfl
      [Message.user "p"] none [] []⟩⟩

/-- C8: a Tool Invocation Request whose decoded arguments omit a required
parameter aborts the run fatally with a message naming the missing
parameter, before the tool implementation runs: for a Write request missing
`content`, the loop result is `fatal` with the world (hence the filesystem)
unchanged; Read missing `file_path`, Write missing `file_path` and Bash
missing `command` error the same way at dispatch. -/
theorem missing_argument_fatal_atomic :
    (∀ (w : World) (i : String) (args : List (String × String)) (fp : String),
      getArg args "file_path" = some fp → fp ≠ "" →
      getArg args "content" = none →
      ∀ (msgs : List Message) (cnt : Option String) (tcs : List ToolCall)
        (rest : List ServiceResponse),
        loopFrom w msgs (⟨cnt, ⟨i, "Write", some args⟩ :: tcs⟩ :: rest) =
          LoopResult.fatal w
            (msgs ++ [Message.assistant cnt (⟨i, "Write", some args⟩ :: tcs)])
            "Missing required argument: content") ∧
    (∀ (w : World) (i : String) (args : List (String × String)),
      getArg args "file_path" = none →
      execCall w ⟨i, "Read", some args⟩ =
        Except.error "Missing required argument: file_path") ∧
    (∀ (w : World) (i : String) (args : List (String × String)),
      getArg args "file_path" = none →
      execCall w ⟨i, "Write", some args⟩ =
        Except.error "Missing required argument: file_path") ∧
    (∀ (w : World) (i : String) (args : List (String × String)),
      getArg args "command" = none →
      execCall w ⟨i, "Bash", some args⟩ =
        Except.error "Missing required argument: command") := by
  refine ⟨?_, ?_, ?_, ?_⟩
  · intro w i args fp hfp hne hc msgs cnt tcs rest
    exact loopFrom_head_fatal w msgs cnt _ tcs rest _ (by simp [execCall, hfp, hne, hc])
  · intro w i args h; simp [execCall, h]
  · intro w i args h; simp [execCall, h]
  · intro w i args h; simp [execCall, h]

/-- Witness for C8 at concrete inputs: a Write request carrying only
`file_path` turns the run fatal naming `content`, with the filesystem
untouched; the three pure dispatch cases are exercised on empty argument
mappings. -/
theorem missing_argument_fatal_atomic_witness :
    (getArg [("file_path", "f")] "file_path" = some "f" ∧ "f" ≠ "" ∧
      getArg [("file_path", "f")] "content" = none ∧
      loopFrom ⟨⟨[], []⟩, fun _ => BashOutcome.completed 0 "" ""⟩ [Message.user "p"]
          [⟨none, [⟨"id1", "Write", some [("file_path", "f")]⟩]⟩] =
        LoopResult.fatal ⟨⟨[], []⟩, fun _ => BashOutcome.completed 0 "" ""⟩
          [Message.user "p",
           Message.assistant none [⟨"id1", "Write", some [("file_path", "f")]⟩]]
          "Missing required argument: content") ∧
    (getArg [] "file_path" = none ∧
      execCall ⟨⟨[], []⟩, fun _ => BashOutcome.completed 0 "" ""⟩ ⟨"id1", "Read", some []⟩ =
        Except.error "Missing required argument: file_path") ∧
    (execCall ⟨⟨[], []⟩, fun _ => BashOutcome.completed 0 "" ""⟩ ⟨"id1", "Write", some []⟩ =
        Except.error "Missing required argument: file_path") ∧
    (getArg [] "command" = none ∧
      execCall ⟨⟨[], []⟩, fun _ => BashOutcome.completed 0 "" ""⟩ ⟨"id1", "Bash", some []⟩ =
        Except.error "Missing required argument: command") :=
  ⟨⟨rfl, by decide, rfl,
    missing_argument_fatal_atomic.1 ⟨⟨[], []⟩, fun _ => BashOutcome.completed 0 "" ""⟩
      "id1" [("file_path", "f")] "f" rfl (by decide) rfl [Message.user "p"] none [] []⟩,
   ⟨rfl, missing_argument_fatal_atomic.2.1 _ "id1" [] rfl⟩,
   missing_argument_fatal_atomic.2.2.1 _ "id1" [] rfl,
   ⟨rfl, missing_argument_fatal_atomic.2.2.2 _ "id1" [] rfl⟩⟩

/-- C9: a Tool Invocation Request naming a tool other than Read, Write or
Bash always makes dispatch abort (no implementation is invoked and nothing
is reported back to the model): with decodable arguments the error is the
`Unsupported tool` message, and at the loop level the run ends in a `fatal`
result with the world unchanged. -/
theorem unknown_tool_fatal :
    ∀ (w : World) (tc : ToolCall),
      tc.name ≠ "Read" → tc.name ≠ "Write" → tc.name ≠ "Bash" →
      (∃ e, execCall w tc = Except.error e) ∧
      (∀ args : List (String × String), tc.args = some args →
        execCall w tc = Except.error ("Unsupported tool: " ++ tc.name)) ∧
      (∀ (msgs : List Message) (cnt : Option String) (tcs : List ToolCall)
        (rest : List ServiceResponse), ∃ e,
        loopFrom w msgs (⟨cnt, tc :: tcs⟩ :: rest) =
          LoopResult.fatal w (msgs ++ [Message.assistant cnt (tc :: tcs)]) e) := by
  intro w tc h1 h2 h3
  have herr : ∃ e, execCall w tc = Except.error e := by
    obtain ⟨i, nm, argsOpt⟩ := tc
    cases argsOpt with
    | none => exact ⟨"Invalid tool arguments JSON", rfl⟩
    | some args =>
      simp only [ToolCall.name] at h1 h2 h3
      exact ⟨"Unsupported tool: " ++ nm, by simp [execCall, h1, h2, h3]⟩
  refine ⟨herr, ?_, ?_⟩
  · intro args hargs
    obtain ⟨i, nm, argsOpt⟩ := tc
    simp only [ToolCall.args] at hargs
    subst hargs
    simp only [ToolCall.name] at h1 h2 h3 ⊢
    simp [execCall, h1, h2, h3]
  · intro msgs cnt tcs rest
    obtain ⟨e, he⟩ := herr
    exact ⟨e, loopFrom_head_fatal w msgs cnt tc tcs rest e he⟩

/-- Witness for C9 at a concrete input: a request for the unregistered tool
`Edit` aborts dispatch with the `Unsupported tool` error and makes the run
fatal. -/
theorem unknown_tool_fatal_witness :
    ("Edit" ≠ "Read" ∧ "Edit" ≠ "Write" ∧ "Edit" ≠ "Bash") ∧
    execCall ⟨⟨[], []⟩, fun _ => BashOutcome.completed 0 "" ""⟩ ⟨"id1", "Edit", some []⟩ =
      Except.error "Unsupported tool: Edit" :=
  ⟨⟨by decide, by decide, by decide⟩,
   (unknown_tool_fatal ⟨⟨[], []⟩, fun _ => BashOutcome.completed 0 "" ""⟩
      ⟨"id1", "Edit", some []⟩ (by decide) (by decide) (by decide)).2.1 [] rfl⟩

/-- C10: at the dispatch boundary an argument bound to the empty string is
treated exactly like a missing one for `file_path` (Read and Write) and
`command` (Bash) — same fatal missing-argument error — whereas a Write whose
`content` is present as the empty string is accepted and the empty write is
performed, updating the filesystem and confirming zero characters written. -/
theorem empty_string_argument_dispatch :
    (∀ (w : World) (i : String) (args : List (String × String)),
      getArg args "file_path" = some "" →
      execCall w ⟨i, "Read", some args⟩ =
        Except.error "Missing required argument: file_path") ∧
    (∀ (w : World) (i : String) (args : List (String × String)),
      getArg args "file_path" = some "" →
      execCall w ⟨i, "Write", some args⟩ =
        Except.error "Missing required argument: file_path") ∧
    (∀ (w : World) (i : String) (args : List (String × String)),
      getArg args "command" = some "" →
      execCall w ⟨i, "Bash", some args⟩ =
        Except.error "Missing required argument: command") ∧
    (∀ (w : World) (i : String) (args : List (String × String)) (fp : String),
      getArg args "file_path" = some fp → fp ≠ "" →
      getArg args "content" = some "" →
      execCall w ⟨i, "Write", some args⟩ =
        Except.ok ({ w with fs := (tool_write w.fs fp "").1 }, "Wrote 0 chars to " ++ fp)) := by
  refine ⟨?_, ?_, ?_, ?_⟩
  · intro w i args h; simp [execCall, h]
  · intro w i args h; simp [execCall, h]
  · intro w i args h; simp [execCall, h]
  · intro w i args fp hfp hne hc
    simp only [execCall, hfp, hne, hc]
    simp [hne, tool_write_snd]
    rfl

/-- Witness for C10 at concrete inputs: empty `file_path` and `command`
strings abort dispatch like missing ones, while a Write with empty `content`
succeeds and records the empty file. -/
theorem empty_string_argument_dispatch_witness :
    (getArg [("file_path", "")] "file_path" = some "" ∧
      execCall ⟨⟨[], []⟩, fun _ => BashOutcome.completed 0 "" ""⟩
          ⟨"id1", "Read", some [("file_path", "")]⟩ =
        Except.error "Missing required argument: file_path") ∧
    (execCall ⟨⟨[], []⟩, fun _ => BashOutcome.completed 0 "" ""⟩
          ⟨"id1", "Write", some [("file_path", "")]⟩ =
        Except.error "Missing required argument: file_path") ∧
    (getArg [("command", "")] "command" = some "" ∧
      execCall ⟨⟨[], []⟩, fun _ => BashOutcome.completed 0 "" ""⟩
          ⟨"id1", "Bash", some [("command", "")]⟩ =
        Except.error "Missing required argument: command") ∧
    (getArg [("file_path", "f"), ("content", "")] "content" = some "" ∧ "f" ≠ "" ∧
      execCall ⟨⟨[], []⟩, fun _ => BashOutcome.completed 0 "" ""⟩
          ⟨"id1", "Write", some [("file_path", "f"), ("content", "")]⟩ =
        Except.ok
          (⟨(tool_write (⟨[], []⟩ : Fs) "f" "").1,
            fun _ => BashOutcome.completed 0 "" ""⟩, "Wrote 0 chars to f")) :=
  ⟨⟨rfl, empty_string_argument_dispatch.1 _ "id1" [("file_path", "")] rfl⟩,
   empty_string_argument_dispatch.2.1 _ "id1" [("file_path", "")] rfl,
   ⟨rfl, empty_string_argument_dispatch.2.2.1 _ "id1" [("command", "")] rfl⟩,
   ⟨rfl, by decide,
    empty_string_argument_dispatch.2.2.2 ⟨⟨[], []⟩, fun _ => BashOutcome.completed 0 "" ""⟩
      "id1" [("file_path", "f"), ("content", "")] "f" rfl (by decide) rfl⟩⟩

/-! ### Loop-level lemmas -/

lemma scanMsgs_append (xs ys : List Message) :
    ∀ p, scanMsgs (xs ++ ys) p = (scanMsgs xs p).bind (fun q => scanMsgs ys q) := by
  induction xs with
  | nil => intro p; simp [scanMsgs]
  | cons m rest ih =>
    intro p
    cases m with
    | user c =>
      by_cases hp : p = [] <;> simp [scanMsgs, hp, ih]
    | assistant c tcs =>
      by_cases hp : p = [] <;> simp [scanMsgs, hp, ih]
    | tool i c =>
      cases p with
      | nil => simp [scanMsgs]
      | cons q qs =>
        by_cases hq : i = q <;> simp [scanMsgs, hq, ih]

lemma toolIds_append (xs ys : List Message) :
    toolIds (xs ++ ys) = toolIds xs ++ toolIds ys := by
  simp [toolIds]

lemma execCalls_ok_scan :
    ∀ (tcs : List ToolCall) (w : World) (msgs : List Message) (w2 : World)
      (msgs2 : List Message),
      scanMsgs msgs [] = some (tcs.map ToolCall.id) →
      execCalls w msgs tcs = StepOut.ok w2 msgs2 →
      scanMsgs msgs2 [] = some [] := by
  intro tcs
  induction tcs with
  | nil =>
    intro w msgs w2 msgs2 hscan hex
    simp only [execCalls] at hex
    cases hex
    simpa using hscan
  | cons tc rest ih =>
    intro w msgs w2 msgs2 hscan hex
    simp only [execCalls] at hex
    cases hE : execCall w tc with
    | error e => rw [hE] at hex; cases hex
    | ok p =>
      rw [hE] at hex
      refine ih p.1 (msgs ++ [Message.tool tc.id p.2]) w2 msgs2 ?_ hex
      rw [scanMsgs_append, hscan]
      simp [scanMsgs]

lemma execCalls_ok_toolIds :
    ∀ (tcs : List ToolCall) (w : World) (msgs : List Message) (w2 : World)
      (msgs2 : List Message),
      execCalls w msgs tcs = StepOut.ok w2 msgs2 →
      toolIds msgs2 = toolIds msgs ++ tcs.map ToolCall.id := by
  intro tcs
  induction tcs with
  | nil =>
    intro w msgs w2 msgs2 hex
    simp only [execCalls] at hex
    cases hex
    simp
  | cons tc rest ih =>
    intro w msgs w2 msgs2 hex
    simp only [execCalls] at hex
    cases hE : execCall w tc with
    | error e => rw [hE] at hex; cases hex
    | ok p =>
      rw [hE] at hex
      have := ih p.1 (msgs ++ [Message.tool tc.id p.2]) w2 msgs2 hex
      rw [this, toolIds_append]
      simp [toolIds]

lemma loopFrom_final_inv :
    ∀ (script : List ServiceResponse) (w : World) (msgs : List Message) (w' : World)
      (t : List Message) (a : String),
      scanMsgs msgs [] = some [] →
      loopFrom w msgs script = LoopResult.final w' t a →
      scanMsgs t [] = some [] ∧
      ∃ l, toolIds t = toolIds msgs ++ l ∧ List.Sublist l (scriptIds script) := by
  intro script
  induction script with
  | nil =>
    intro w msgs w' t a hscan hrun
    simp [loopFrom] at hrun
  | cons r rest ih =>
    intro w msgs w' t a hscan hrun
    by_cases hr : r.tool_calls = []
    · have hstep : loopFrom w msgs (r :: rest) =
          LoopResult.final w (msgs ++ [Message.assistant r.content []]) (r.content.getD "") := by
        simp [loopFrom, hr]
      rw [hstep] at hrun
      cases hrun
      constructor
      · rw [scanMsgs_append, hscan]
        simp [scanMsgs]
      · refine ⟨[], ?_, List.nil_sublist _⟩
        rw [toolIds_append]
        simp [toolIds]
    · simp only [loopFrom, hr, if_neg, if_false] at hrun
      cases hE : execCalls w (msgs ++ [Message.assistant r.content r.tool_calls])
          r.tool_calls with
      | fatal w2 m2 e => rw [hE] at hrun; cases hrun
      | ok w2 m2 =>
        rw [hE] at hrun
        have hscan' :
            scanMsgs (msgs ++ [Message.assistant r.content r.tool_calls]) [] =
              some (r.tool_calls.map ToolCall.id) := by
          rw [scanMsgs_append, hscan]
          simp [scanMsgs]
        have hm2 := execCalls_ok_scan r.tool_calls w _ w2 m2 hscan' hE
        obtain ⟨hscant, l, hl, hsub⟩ := ih w2 m2 w' t a hm2 hrun
        refine ⟨hscant, r.tool_calls.map ToolCall.id ++ l, ?_, ?_⟩
        · rw [hl, execCalls_ok_toolIds r.tool_calls w _ w2 m2 hE, toolIds_append]
          simp [toolIds, List.append_assoc]
        · have : scriptIds (r :: rest) =
              r.tool_calls.map ToolCall.id ++ scriptIds rest := by
            simp [scriptIds]
          rw [this]
          exact List.Sublist.append_left hsub _

lemma loopFrom_out_append :
    ∀ (script : List ServiceResponse) (w : World) (msgs : List Message) (w' : World)
      (msgs' : List Message) (more : List ServiceResponse),
      loopFrom w msgs script = LoopResult.outOfResponses w' msgs' →
      loopFrom w msgs (script ++ more) = loopFrom w' msgs' more := by
  intro script
  induction script with
  | nil =>
    intro w msgs w' msgs' more h
    simp only [loopFrom] at h
    cases h
    simp
  | cons r rest ih =>
    intro w msgs w' msgs' more h
    by_cases hr : r.tool_calls = []
    · simp [loopFrom, hr] at h
    · simp only [loopFrom, hr, if_neg, if_false] at h ⊢
      cases hE : execCalls w (msgs ++ [Message.assistant r.content r.tool_calls])
          r.tool_calls with
      | fatal w2 m2 e => rw [hE] at h; cases h
      | ok w2 m2 =>
        rw [hE] at h
        exact ih w2 m2 w' msgs' more h

/-! ### Agent-loop claims -/

/-- C1: transcript correlation invariant: for a run of the agent loop that
terminates normally, with the service-assigned invocation ids unique across
the run, the final transcript passes the left-to-right correlation scan —
every tool-role message answers exactly the first still-pending invocation
request of the immediately preceding assistant message, every request of an
assistant message is answered before the next service call, no request is
left pending — and no two tool-role messages share a `tool_call_id`. -/
theorem transcript_correlation (w : World) (prompt : String)
    (script : List ServiceResponse) (hids : (scriptIds script).Nodup)
    (w' : World) (t : List Message) (ans : String)
    (hrun : run_agent_loop w prompt script = LoopResult.final w' t ans) :
    scanMsgs t [] = some [] ∧ (toolIds t).Nodup := by
  obtain ⟨hscan, l, hl, hsub⟩ :=
    loopFrom_final_inv script w [Message.user prompt] w' t ans rfl hrun
  refine ⟨hscan, ?_⟩
  have ht : toolIds t = l := by simpa [toolIds] using hl
  rw [ht]
  exact List.Nodup.sublist hsub hids

/-- Witness for C1 on a concrete two-round run: one Read invocation answered
by one tool message, then a final answer. -/
theorem transcript_correlation_witness :
    (scriptIds [⟨none, [⟨"id1", "Read", some [("file_path", "f")]⟩]⟩,
      ⟨some "done", []⟩]).Nodup ∧
    run_agent_loop ⟨⟨[("f", "x")], []⟩, fun _ => BashOutcome.completed 0 "" ""⟩ "p"
        [⟨none, [⟨"id1", "Read", some [("file_path", "f")]⟩]⟩, ⟨some "done", []⟩] =
      LoopResult.final ⟨⟨[("f", "x")], []⟩, fun _ => BashOutcome.completed 0 "" ""⟩
        [Message.user "p",
         Message.assistant none [⟨"id1", "Read", some [("file_path", "f")]⟩],
         Message.tool "id1" "x",
         Message.assistant (some "done") []] "done" ∧
    scanMsgs [Message.user "p",
      Message.assistant none [⟨"id1", "Read", some [("file_path", "f")]⟩],
      Message.tool "id1" "x",
      Message.assistant (some "done") []] [] = some [] ∧
    (toolIds [Message.user "p",
      Message.assistant none [⟨"id1", "Read", some [("file_path", "f")]⟩],
      Message.tool "id1" "x",
      Message.assistant (some "done") []]).Nodup :=
  ⟨by decide, rfl,
   transcript_correlation ⟨⟨[("f", "x")], []⟩, fun _ => BashOutcome.completed 0 "" ""⟩ "p"
     [⟨none, [⟨"id1", "Read", some [("file_path", "f")]⟩]⟩, ⟨some "done", []⟩]
     (by decide) _ _ "done" rfl⟩

/-- C2: loop termination and final result: when the run reaches a service
response carrying no tool invocation requests — the prefix of earlier
responses having been consumed by the loop without terminating — the loop
terminates at that response and returns its text content exactly, or the
empty string when the content field is absent. -/
theorem loop_termination_final_content (w : World) (prompt : String)
    (script : List ServiceResponse) (w' : World) (t : List Message)
    (r : ServiceResponse)
    (hpre : run_agent_loop w prompt script = LoopResult.outOfResponses w' t)
    (hr : r.tool_calls = []) :
    run_agent_loop w prompt (script ++ [r]) =
      LoopResult.final w' (t ++ [Message.assistant r.content []]) (r.content.getD "") := by
  unfold run_agent_loop at hpre ⊢
  rw [loopFrom_out_append script w [Message.user prompt] w' t [r] hpre]
  simp [loopFrom, hr]

/-- Witness for C2 on concrete runs: a lone response with content `hi` and
no tool calls ends the run with exactly `hi`; one with absent content ends
it with the empty string. -/
theorem loop_termination_final_content_witness :
    run_agent_loop ⟨⟨[], []⟩, fun _ => BashOutcome.completed 0 "" ""⟩ "q" [] =
      LoopResult.outOfResponses ⟨⟨[], []⟩, fun _ => BashOutcome.completed 0 "" ""⟩
        [Message.user "q"] ∧
    (⟨some "hi", []⟩ : ServiceResponse).tool_calls = [] ∧
    run_agent_loop ⟨⟨[], []⟩, fun _ => BashOutcome.completed 0 "" ""⟩ "q"
        [⟨some "hi", []⟩] =
      LoopResult.final ⟨⟨[], []⟩, fun _ => BashOutcome.completed 0 "" ""⟩
        [Message.user "q", Message.assistant (some "hi") []] "hi" ∧
    run_agent_loop ⟨⟨[], []⟩, fun _ => BashOutcome.completed 0 "" ""⟩ "q"
        [⟨none, []⟩] =
      LoopResult.final ⟨⟨[], []⟩, fun _ => BashOutcome.completed 0 "" ""⟩
        [Message.user "q", Message.assistant none []] "" :=
  ⟨rfl, rfl,
   loop_termination_final_content ⟨⟨[], []⟩, fun _ => BashOutcome.completed 0 "" ""⟩
     "q" [] _ _ ⟨some "hi", []⟩ rfl rfl,
   loop_termination_final_content ⟨⟨[], []⟩, fun _ => BashOutcome.completed 0 "" ""⟩
     "q" [] _ _ ⟨none, []⟩ rfl rfl⟩
